import Mathlib

/-!
Verification of the license-generator program (`generate-license.py`).

The program's core logic is embedded shallowly:

* template text is a `List Char`;
* `re.findall` with the pattern matching a bracket-delimited run of
  non-bracket characters is embedded as a left-to-right character machine
  (`reFindallAux`), which performs exactly the leftmost, non-overlapping
  matching the regular-expression engine performs; the module as shipped,
  however, never imports `re`, so `parse_reqfields_licenses` models the
  resulting unconditional `NameError` and the machine gives only the
  semantics of the library call the source names;
* the field validators, the interactive prompt loops, the gitconfig name
  lookup and the field-resolution loop of `main` are embedded as
  executable functions;
* console input is modelled as a stream `Nat → String` of the lines a
  prompt would read;
* the renderer, which is absent from the source, is modelled from the
  spec in `renderAux`.
-/

/-- State machine implementing the semantics of
`re.findall` with pattern bracket, one-or-more non-closing-bracket
characters, closing bracket: scan left to right; `none` means outside any
candidate match, `some acc` means a literal opening bracket has been read
followed by the (closing-bracket-free) characters `acc`.  On a closing
bracket with nonempty `acc` the match is emitted (already stripped of its
surrounding brackets, as `x[1:-1]` does in the source) and scanning resumes
after it; an immediately-closed empty pair emits nothing, exactly as the
one-or-more quantifier refuses the empty run. -/
def reFindallAux : List Char → Option (List Char) → List (List Char)
  | [], _ => []
  | c :: rest, none =>
      if c = '[' then reFindallAux rest (some []) else reFindallAux rest none
  | c :: rest, some acc =>
      if c = ']' then
        if acc = [] then reFindallAux rest none else acc :: reFindallAux rest none
      else reFindallAux rest (some (acc ++ [c]))

/-- The list of (bracket-stripped) matches of the scanner expression, in
match order, duplicates included: `re.findall` composed with the
bracket-stripping `map`.  This is the semantics of the library call the
source names; as shipped the module never imports `re`, so
`parse_reqfields_licenses` never reaches a successful call — see there. -/
def reFindall (content : List Char) : List (List Char) := reFindallAux content none

/-- The placeholder set the scanner expression denotes: the Python
`set(...)` around the stripped matches, modelled as the deduplicated list
(set semantics are used through membership only).  It is the collection
step `parse_reqfields_licenses` was meant to run — unreachable as shipped,
since `re` is never imported — and the spec's placeholder-set observer
used to re-scan rendered output. -/
def scanTokens (content : List Char) : List (List Char) := (reFindall content).dedup

/-- The module-level imports of the program: `argparse`, `sys`, `os`,
`ConfigParser` and `date`.  The name `re` is not among them, although the
scanner line of `parse_reqfields_licenses` uses it. -/
def moduleImports : List String := ["argparse", "sys", "os", "ConfigParser", "date"]

/-- Result of running a Python function: a returned value, or an uncaught
`NameError` carrying the name that failed to resolve. -/
inductive PyResult (α : Type) where
  | ok (val : α)
  | nameError (name : String)
  deriving DecidableEq

/-- `parse_reqfields_licenses` as shipped, over the template store (pairs
of a license name and its template text).  Each loop iteration evaluates
the expression containing `re.findall(...)`; the global name `re` must
resolve against the module's imports, and it never does, so the first
iteration raises `NameError` and no required-field set is ever produced.
Only an empty template store completes the loop, returning the empty
dictionary.  In the unreachable branch where `re` would be imported, the
iteration computes `scanTokens`, the semantics of the intended
expression. -/
def parse_reqfields_licenses :
    List (String × List Char) → PyResult (List (String × List (List Char)))
  | [] => .ok []
  | (name, content) :: rest =>
      if moduleImports.contains "re" then
        match parse_reqfields_licenses rest with
        | .ok d => .ok ((name, scanTokens content) :: d)
        | .nameError n => .nameError n
      else .nameError "re"

/-- Python `str.strip()`: drop leading and trailing whitespace. -/
def pyStrip (s : String) : String :=
  String.mk (((s.data.dropWhile Char.isWhitespace).reverse.dropWhile
      Char.isWhitespace).reverse)

/-- `is_author_valid`: the stripped name is nonempty. -/
def is_author_valid (author_name : String) : Bool :=
  !(pyStrip author_name).data.isEmpty

/-- `is_project_valid`: the stripped name is nonempty. -/
def is_project_valid (project_name : String) : Bool :=
  !(pyStrip project_name).data.isEmpty

/-- After an initial digit, the remaining characters of a Python integer
literal body: digits, with single underscores allowed only between digits. -/
def validUnderscoreGroupingAux : List Char → Bool
  | [] => true
  | '_' :: [] => false
  | '_' :: c :: rest => c.isDigit && validUnderscoreGroupingAux rest
  | c :: rest => c.isDigit && validUnderscoreGroupingAux rest

/-- A nonempty digit string as accepted by Python `int`, underscores
permitted between digits. -/
def validDigitString : List Char → Bool
  | [] => false
  | c :: rest => c.isDigit && validUnderscoreGroupingAux rest

/-- Numeric value of a digit string, ignoring grouping underscores. -/
def digitsValue (l : List Char) : Nat :=
  l.foldl (fun acc c => if c = '_' then acc else acc * 10 + (c.toNat - 48)) 0

/-- Model of CPython `int(str)`: strip whitespace, optional sign, then a
nonempty ASCII digit string with optional grouping underscores; `none`
models the `ValueError` raised otherwise. -/
def pythonParseInt (s : String) : Option Int :=
  match (pyStrip s).data with
  | '+' :: rest =>
      if validDigitString rest then some (Int.ofNat (digitsValue rest)) else none
  | '-' :: rest =>
      if validDigitString rest then some (-(Int.ofNat (digitsValue rest))) else none
  | rest =>
      if validDigitString rest then some (Int.ofNat (digitsValue rest)) else none

/-- Model of constructing `date(year, 1, 1)`: January 1st is constructible
exactly when the year lies in `MINYEAR = 1 .. MAXYEAR = 9999`. -/
def date_jan1_ok (year : Int) : Bool := decide (1 ≤ year ∧ year ≤ 9999)

/-- `is_year_valid`: `int(year_string)` must succeed and `date(year, 1, 1)`
must be constructible. -/
def is_year_valid (year_string : String) : Bool :=
  match pythonParseInt year_string with
  | none => false
  | some year => date_jan1_ok year

/-- `show_fullname_prompt`, instrumented: the loop over the retry budget,
returning the result together with the number of prompt attempts (lines
read).  `stdin i` is the line the `i`-th attempt would read. -/
def show_fullname_promptA : Nat → (Nat → String) → Option String × Nat
  | 0, _ => (none, 0)
  | retry + 1, stdin =>
      if is_author_valid (pyStrip (stdin 0)) then (some (pyStrip (stdin 0)), 1)
      else
        match show_fullname_promptA retry (fun i => stdin (i + 1)) with
        | (r, k) => (r, k + 1)

/-- `show_fullname_prompt`: the returned value only. -/
def show_fullname_prompt (retry : Nat) (stdin : Nat → String) : Option String :=
  (show_fullname_promptA retry stdin).1

/-- `show_project_prompt`, instrumented like `show_fullname_promptA`. -/
def show_project_promptA : Nat → (Nat → String) → Option String × Nat
  | 0, _ => (none, 0)
  | retry + 1, stdin =>
      if is_project_valid (pyStrip (stdin 0)) then (some (pyStrip (stdin 0)), 1)
      else
        match show_project_promptA retry (fun i => stdin (i + 1)) with
        | (r, k) => (r, k + 1)

/-- `show_project_prompt`: the returned value only. -/
def show_project_prompt (retry : Nat) (stdin : Nat → String) : Option String :=
  (show_project_promptA retry stdin).1

/-- `show_year_prompt`, instrumented: on a valid answer it returns
`int(answer)`. -/
def show_year_promptA : Nat → (Nat → String) → Option Int × Nat
  | 0, _ => (none, 0)
  | retry + 1, stdin =>
      if is_year_valid (pyStrip (stdin 0)) then
        (some ((pythonParseInt (pyStrip (stdin 0))).getD 0), 1)
      else
        match show_year_promptA retry (fun i => stdin (i + 1)) with
        | (r, k) => (r, k + 1)

/-- `show_year_prompt`: the returned value only. -/
def show_year_prompt (retry : Nat) (stdin : Nat → String) : Option Int :=
  (show_year_promptA retry stdin).1

/-- The relative gitconfig path built by the source:
`os.path.sep.join(['~', 'gitconfig'])` (POSIX separator). -/
def gitconfig_relpath : String := String.intercalate "/" ["~", "gitconfig"]

/-- `parse_name_from_gitconfig`: the configuration file is modelled as
`none` when it could not be read, otherwise as its sections, each an
association list of keys to values.  Returns the `name` entry of the
`user` section when both exist. -/
def parse_name_from_gitconfig
    (gitconfig : Option (List (String × List (String × String)))) : Option String :=
  match gitconfig with
  | none => none
  | some sections =>
      match sections.lookup "user" with
      | none => none
      | some user_section => user_section.lookup "name"

/-- The argparse namespace produced by `make_parser().parse_args(...)`:
every destination is always present as an attribute, optional ones with
value `None` when their flag was not given. -/
structure Args where
  fullname : Option String
  project : Option String
  output_path : String
  year : Int
  interactive_enabled : Bool
  prompt_retry : Nat
  license : String

/-- The attribute names the argparse namespace always carries: the `dest`
of every argument of `make_parser`. -/
def argsKeys : List String :=
  ["fullname", "project", "output_path", "year", "interactive_enabled",
   "prompt_retry", "license"]

/-- The Python membership test `field_name in args` on an argparse
namespace: it checks attribute existence, not whether a value was
supplied. -/
def argsContains (field_name : String) : Bool := argsKeys.contains field_name

/-- Whether a module-level function named by gluing the field name into the
prompt-function name pattern exists, i.e. whether the lookup the source
performs with `eval` succeeds: only the fullname, project, year and license
prompts are defined. -/
def promptDefined (field_name : String) : Bool :=
  ["fullname", "project", "year", "license"].contains field_name

/-- Observable outcome of the field-resolution part of `main`
(lines 174-192): fall through successfully, exit with the aggregate
missing-fields message, exit with the single-field prompt-exhausted
message, or crash with an uncaught `NameError` from `eval`. -/
inductive MainOutcome where
  | ok
  | missingFields (fields : List String)
  | promptRequired (field : String)
  | nameError (name : String)
  deriving DecidableEq

/-- Lexicographic comparison of character lists by code point, the order
Python string comparison uses. -/
def charsLt : List Char → List Char → Bool
  | [], [] => false
  | [], _ :: _ => true
  | _ :: _, [] => false
  | c :: a, d :: b =>
      if c.toNat < d.toNat then true
      else if d.toNat < c.toNat then false
      else charsLt a b

/-- Python string comparison. -/
def strLt (a b : String) : Bool := charsLt a.data b.data

/-- Insert a string into an ascending list, preserving order. -/
def insertSorted (s : String) : List String → List String
  | [] => [s]
  | t :: rest => if strLt t s then t :: insertSorted s rest else s :: t :: rest

/-- Ascending sort, modelling Python `sorted` on a list of field names. -/
def sortStrings : List String → List String
  | [] => []
  | s :: rest => insertSorted s (sortStrings rest)

/-- The field loop of `main`: for each required field, if the argparse
namespace lacks the attribute then, interactively, look up the prompt
function (`eval`), call it (`promptOf` gives the value the call returns,
`none` for an exhausted prompt) and exit when it returns `None`; in every
non-exiting branch the field is appended to `fields_not_specified`
regardless of the prompt result, as the source's unfinished interactive
branch does.  After the loop a nonempty `fields_not_specified` exits with
the aggregate message. -/
def resolveLoop (args : Args) (promptOf : String → Option Unit) :
    List String → List String → MainOutcome
  | [], notSpec => if notSpec.isEmpty then .ok else .missingFields notSpec
  | f :: rest, notSpec =>
      if argsContains f then resolveLoop args promptOf rest notSpec
      else
        if args.interactive_enabled then
          if promptDefined f then
            match promptOf f with
            | none => .promptRequired f
            | some _ => resolveLoop args promptOf rest (notSpec ++ [f])
          else .nameError ("show_" ++ f ++ "_prompt")
        else resolveLoop args promptOf rest (notSpec ++ [f])

/-- Field resolution of `main` for one license: iterate over
`sorted(list(reqfields[license]))` with an empty `fields_not_specified`. -/
def resolveMain (reqfields : List String) (args : Args)
    (promptOf : String → Option Unit) : MainOutcome :=
  resolveLoop args promptOf (sortStrings reqfields.dedup) []

/-- Modelled from the spec: the renderer, absent from the source.  Replaces
every bracket-delimited placeholder occurrence (the same occurrences the
scanner matches) with its resolved value from the context, fails
(`none`, the `MissingField` failure) when the context lacks a required
field, and leaves all other text unchanged. -/
def renderAux (ctx : List Char → Option (List Char)) :
    List Char → Option (List Char) → Option (List Char)
  | [], none => some []
  | [], some acc => some ('[' :: acc)
  | c :: rest, none =>
      if c = '[' then renderAux ctx rest (some [])
      else
        match renderAux ctx rest none with
        | none => none
        | some out => some (c :: out)
  | c :: rest, some acc =>
      if c = ']' then
        if acc = [] then
          match renderAux ctx rest none with
          | none => none
          | some out => some ('[' :: ']' :: out)
        else
          match ctx acc with
          | none => none
          | some v =>
              match renderAux ctx rest none with
              | none => none
              | some out => some (v ++ out)
      else renderAux ctx rest (some (acc ++ [c]))

/-- Modelled from the spec: render a template against a context. -/
def render (ctx : List Char → Option (List Char)) (T : List Char) :
    Option (List Char) :=
  renderAux ctx T none

/-- A context value that contains neither bracket character; `false` also
when the context has no value at all. -/
def bracketFreeVal (o : Option (List Char)) : Bool :=
  (o.map (fun v => decide ('[' ∉ v) && decide (']' ∉ v))).getD false

/-! ### Scanner lemmas -/

theorem mem_reFindallAux_ne_nil (T : List Char) :
    ∀ (st : Option (List Char)) (s : List Char), s ∈ reFindallAux T st → s ≠ [] := by
  induction T with
  | nil => intro st s hs; simp [reFindallAux] at hs
  | cons c rest ih =>
    intro st s hs
    match st with
    | none =>
      simp only [reFindallAux] at hs
      split at hs
      · exact ih _ _ hs
      · exact ih _ _ hs
    | some acc =>
      simp only [reFindallAux] at hs
      split at hs
      · split at hs
        · exact ih _ _ hs
        · rename_i hacc
          rcases List.mem_cons.mp hs with h | h
          · subst h; exact hacc
          · exact ih _ _ h
      · exact ih _ _ hs

theorem reFindallAux_no_close (l : List Char) :
    ∀ acc : List Char, ']' ∉ l → reFindallAux l (some acc) = [] := by
  induction l with
  | nil => intro acc _; rfl
  | cons c rest ih =>
    intro acc h
    have hc : ¬ c = ']' := fun e => h (e ▸ List.mem_cons_self c rest)
    simp only [reFindallAux, if_neg hc]
    exact ih _ (fun hr => h (List.mem_cons_of_mem _ hr))

theorem reFindallAux_append_no_open (l : List Char) :
    ∀ m : List Char, '[' ∉ l → reFindallAux (l ++ m) none = reFindallAux m none := by
  induction l with
  | nil => intro m _; rfl
  | cons c rest ih =>
    intro m h
    have hc : ¬ c = '[' := fun e => h (e ▸ List.mem_cons_self c rest)
    simp only [List.cons_append, reFindallAux, if_neg hc]
    exact ih _ (fun hr => h (List.mem_cons_of_mem _ hr))

/-- C4: the shipped scanner never returns any required-field set at all:
the module does not import `re`, so `parse_reqfields_licenses` raises
`NameError` at its first template; only an empty template store avoids the
crash, and then the returned dictionary is empty. -/
theorem c4_reqfields_nameerror :
    "re" ∉ moduleImports ∧
      parse_reqfields_licenses [("mit", "Copyright [year] [fullname]".data)]
        = PyResult.nameError "re" ∧
      parse_reqfields_licenses [] = PyResult.ok [] :=
  ⟨by decide, by decide, rfl⟩

/-- C10: the shipped scanner produces no placeholder name at all — it
raises `NameError` before collecting anything — while the collection step
it was meant to run (`scanTokens`, the semantics of the expression at the
crashing line) indeed never collects the empty name, for any text. -/
theorem c10_scanner_never_produces :
    parse_reqfields_licenses [("mit", "[][fullname]".data)]
        = PyResult.nameError "re" ∧
      ∀ (T s : List Char), s ∈ scanTokens T → s ≠ [] :=
  ⟨by decide, fun T s hs => mem_reFindallAux_ne_nil T none s (List.mem_dedup.mp hs)⟩

/-! ### Field-resolution lemmas -/

theorem resolveLoop_not_interactive (args : Args) (promptOf : String → Option Unit)
    (hni : args.interactive_enabled = false) :
    ∀ (l acc : List String),
      resolveLoop args promptOf l acc =
        if (acc ++ l.filter (fun f => !(argsContains f))).isEmpty then
          MainOutcome.ok
        else MainOutcome.missingFields
          (acc ++ l.filter (fun f => !(argsContains f))) := by
  intro l
  induction l with
  | nil =>
    intro acc
    simp [resolveLoop]
  | cons f rest ih =>
    intro acc
    by_cases hf : argsContains f = true
    · rw [resolveLoop, if_pos hf, ih acc]
      simp [List.filter_cons, hf]
    · have hf' : argsContains f = false := by
        cases h : argsContains f
        · rfl
        · exact absurd h hf
      rw [resolveLoop, if_neg (by simp [hf']), if_neg (by simp [hni]),
        ih (acc ++ [f])]
      simp [List.filter_cons, hf', List.append_assoc]

/-- C1 (amended): with interactive prompting disabled, whenever field
resolution finishes with one or more required fields unresolved (their
names absent from the argparse namespace), it fails with one aggregate
error carrying the complete sorted list of all unresolved field names —
never just the first. -/
theorem c1_nonInteractive_missing_aggregated (reqfields : List String)
    (args : Args) (promptOf : String → Option Unit)
    (hni : args.interactive_enabled = false)
    (hmiss : (sortStrings reqfields.dedup).filter (fun f => !(argsContains f)) ≠ []) :
    resolveMain reqfields args promptOf =
      MainOutcome.missingFields
        ((sortStrings reqfields.dedup).filter (fun f => !(argsContains f))) := by
  rw [resolveMain, resolveLoop_not_interactive args promptOf hni]
  simp only [List.nil_append]
  rw [if_neg]
  intro h
  exact hmiss (List.isEmpty_iff.mp h)

/-- C1 witness: the aggregation theorem applied to a concrete
non-interactive invocation with one unresolvable field. -/
theorem c1_missing_aggregated_witness :
    ((sortStrings (["licensee"] : List String).dedup).filter
        (fun f => !(argsContains f)) ≠ []) ∧
      resolveMain ["licensee"] ⟨none, none, "-", 2026, false, 3, "mit"⟩
        (fun _ => none) = MainOutcome.missingFields ["licensee"] :=
  ⟨by decide,
    c1_nonInteractive_missing_aggregated ["licensee"]
      ⟨none, none, "-", 2026, false, 3, "mit"⟩ (fun _ => none) rfl (by decide)⟩

/-- C1 counterexample: with interactive prompting enabled and two required
fields unresolved, resolution aborts at the first of them (an uncaught
NameError from the prompt-function lookup) instead of reporting both
unresolved fields together in one message. -/
theorem c1_interactive_abort_cex :
    resolveMain ["licensee", "zcustom"] ⟨none, none, "-", 2026, true, 3, "mit"⟩
        (fun _ => none) = MainOutcome.nameError "show_licensee_prompt" := by
  decide

/-- C2: even with a prompt oracle that would answer every field with a
valid value, an interactive run over a required field outside the argparse
namespace crashes in the prompt-function lookup; no prompted value is ever
accepted into the resolution and the run does not succeed. -/
theorem c2_prompt_value_never_accepted :
    resolveMain ["licensee"] ⟨none, none, "-", 2026, true, 3, "mit"⟩
        (fun _ => some ()) = MainOutcome.nameError "show_licensee_prompt" := by
  decide

/-- C3: with interactive prompting disabled and the required field
`project` not supplied (its namespace value is `None`), resolution
nevertheless succeeds without any missing-field error, because the
membership test on the argparse namespace only checks attribute
existence. -/
theorem c3_namespace_field_never_missing :
    resolveMain ["project"] ⟨none, none, "-", 2026, false, 3, "mit"⟩
        (fun _ => none) = MainOutcome.ok := by
  decide

/-- C5: a well-formed configuration file would yield a user name, yet
resolution of a license requiring `fullname` with no explicit name never
consults it (the lookup function is never called by `main`, whose outcome
is independent of any configuration file) — and the path the lookup
function would read lacks the leading dot of `.gitconfig`. -/
theorem c5_gitconfig_unconsulted :
    parse_name_from_gitconfig (some [("user", [("name", "Ada Lovelace")])])
        = some "Ada Lovelace" ∧
      resolveMain ["fullname"] ⟨none, none, "-", 2026, true, 3, "mit"⟩
          (fun _ => none) = MainOutcome.ok ∧
      gitconfig_relpath = "~/gitconfig" :=
  ⟨by decide, by decide, by decide⟩

/-! ### Prompt-loop lemmas -/

theorem show_fullname_promptA_count_le :
    ∀ (retry : Nat) (stdin : Nat → String),
      (show_fullname_promptA retry stdin).2 ≤ retry := by
  intro retry
  induction retry with
  | zero => intro stdin; simp [show_fullname_promptA]
  | succ n ih =>
    intro stdin
    simp only [show_fullname_promptA]
    split
    · simp
    · rcases hred : show_fullname_promptA n (fun i => stdin (i + 1)) with ⟨r, k⟩
      have hk := ih (fun i => stdin (i + 1))
      rw [hred] at hk
      exact Nat.succ_le_succ hk

theorem show_project_promptA_count_le :
    ∀ (retry : Nat) (stdin : Nat → String),
      (show_project_promptA retry stdin).2 ≤ retry := by
  intro retry
  induction retry with
  | zero => intro stdin; simp [show_project_promptA]
  | succ n ih =>
    intro stdin
    simp only [show_project_promptA]
    split
    · simp
    · rcases hred : show_project_promptA n (fun i => stdin (i + 1)) with ⟨r, k⟩
      have hk := ih (fun i => stdin (i + 1))
      rw [hred] at hk
      exact Nat.succ_le_succ hk

theorem show_year_promptA_count_le :
    ∀ (retry : Nat) (stdin : Nat → String),
      (show_year_promptA retry stdin).2 ≤ retry := by
  intro retry
  induction retry with
  | zero => intro stdin; simp [show_year_promptA]
  | succ n ih =>
    intro stdin
    simp only [show_year_promptA]
    split
    · simp
    · rcases hred : show_year_promptA n (fun i => stdin (i + 1)) with ⟨r, k⟩
      have hk := ih (fun i => stdin (i + 1))
      rw [hred] at hk
      exact Nat.succ_le_succ hk

theorem show_fullname_prompt_none_iff :
    ∀ (retry : Nat) (stdin : Nat → String),
      (show_fullname_prompt retry stdin = none ↔
        ∀ i, i < retry → is_author_valid (pyStrip (stdin i)) = false) := by
  intro retry
  induction retry with
  | zero =>
    intro stdin
    simp [show_fullname_prompt, show_fullname_promptA]
  | succ n ih =>
    intro stdin
    by_cases h0 : is_author_valid (pyStrip (stdin 0)) = true
    · simp only [show_fullname_prompt, show_fullname_promptA, if_pos h0]
      constructor
      · intro h
        exact absurd h (by simp)
      · intro hall
        exact absurd (hall 0 (Nat.succ_pos n)) (by simp [h0])
    · have h0' : is_author_valid (pyStrip (stdin 0)) = false := by
        cases h : is_author_valid (pyStrip (stdin 0))
        · rfl
        · exact absurd h h0
      have hfst : show_fullname_prompt (n + 1) stdin
          = show_fullname_prompt n (fun i => stdin (i + 1)) := by
        simp only [show_fullname_prompt, show_fullname_promptA,
          if_neg (by simp [h0'] : ¬ is_author_valid (pyStrip (stdin 0)) = true)]
      rw [hfst, ih (fun i => stdin (i + 1))]
      constructor
      · intro hall i hi
        cases i with
        | zero => exact h0'
        | succ j => exact hall j (Nat.lt_of_succ_lt_succ hi)
      · intro hall i hi
        exact hall (i + 1) (Nat.succ_lt_succ hi)

theorem show_fullname_prompt_some_iff :
    ∀ (retry : Nat) (stdin : Nat → String) (v : String),
      (show_fullname_prompt retry stdin = some v ↔
        ∃ i, i < retry ∧ is_author_valid (pyStrip (stdin i)) = true ∧
          (∀ j, j < i → is_author_valid (pyStrip (stdin j)) = false) ∧
          v = pyStrip (stdin i)) := by
  intro retry
  induction retry with
  | zero =>
    intro stdin v
    simp only [show_fullname_prompt, show_fullname_promptA]
    constructor
    · intro h
      exact absurd h (by simp)
    · rintro ⟨i, hi, _⟩
      exact absurd hi (Nat.not_lt_zero i)
  | succ n ih =>
    intro stdin v
    by_cases h0 : is_author_valid (pyStrip (stdin 0)) = true
    · simp only [show_fullname_prompt, show_fullname_promptA, if_pos h0]
      constructor
      · intro h
        have hv : pyStrip (stdin 0) = v := by simpa using h
        exact ⟨0, Nat.succ_pos n, h0,
          fun j hj => absurd hj (Nat.not_lt_zero j), hv.symm⟩
      · rintro ⟨i, hi, hval, hmin, hv⟩
        cases i with
        | zero => simp [hv]
        | succ j => exact absurd h0 (by simp [hmin 0 (Nat.succ_pos j)])
    · have h0' : is_author_valid (pyStrip (stdin 0)) = false := by
        cases h : is_author_valid (pyStrip (stdin 0))
        · rfl
        · exact absurd h h0
      have hfst : show_fullname_prompt (n + 1) stdin
          = show_fullname_prompt n (fun i => stdin (i + 1)) := by
        simp only [show_fullname_prompt, show_fullname_promptA,
          if_neg (by simp [h0'] : ¬ is_author_valid (pyStrip (stdin 0)) = true)]
      rw [hfst, ih (fun i => stdin (i + 1)) v]
      constructor
      · rintro ⟨i, hi, hval, hmin, hv⟩
        refine ⟨i + 1, Nat.succ_lt_succ hi, hval, ?_, hv⟩
        intro j hj
        cases j with
        | zero => exact h0'
        | succ l => exact hmin l (Nat.lt_of_succ_lt_succ hj)
      · rintro ⟨i, hi, hval, hmin, hv⟩
        cases i with
        | zero => exact absurd hval (by simp [h0'])
        | succ l =>
          exact ⟨l, Nat.lt_of_succ_lt_succ hi, hval,
            fun j hj => hmin (j + 1) (Nat.succ_lt_succ hj), hv⟩

theorem show_year_prompt_none_iff :
    ∀ (retry : Nat) (stdin : Nat → String),
      (show_year_prompt retry stdin = none ↔
        ∀ i, i < retry → is_year_valid (pyStrip (stdin i)) = false) := by
  intro retry
  induction retry with
  | zero =>
    intro stdin
    simp [show_year_prompt, show_year_promptA]
  | succ n ih =>
    intro stdin
    by_cases h0 : is_year_valid (pyStrip (stdin 0)) = true
    · simp only [show_year_prompt, show_year_promptA, if_pos h0]
      constructor
      · intro h
        exact absurd h (by simp)
      · intro hall
        exact absurd (hall 0 (Nat.succ_pos n)) (by simp [h0])
    · have h0' : is_year_valid (pyStrip (stdin 0)) = false := by
        cases h : is_year_valid (pyStrip (stdin 0))
        · rfl
        · exact absurd h h0
      have hfst : show_year_prompt (n + 1) stdin
          = show_year_prompt n (fun i => stdin (i + 1)) := by
        simp only [show_year_prompt, show_year_promptA,
          if_neg (by simp [h0'] : ¬ is_year_valid (pyStrip (stdin 0)) = true)]
      rw [hfst, ih (fun i => stdin (i + 1))]
      constructor
      · intro hall i hi
        cases i with
        | zero => exact h0'
        | succ j => exact hall j (Nat.lt_of_succ_lt_succ hi)
      · intro hall i hi
        exact hall (i + 1) (Nat.succ_lt_succ hi)

theorem show_year_prompt_some_iff :
    ∀ (retry : Nat) (stdin : Nat → String) (v : Int),
      (show_year_prompt retry stdin = some v ↔
        ∃ i, i < retry ∧ is_year_valid (pyStrip (stdin i)) = true ∧
          (∀ j, j < i → is_year_valid (pyStrip (stdin j)) = false) ∧
          v = (pythonParseInt (pyStrip (stdin i))).getD 0) := by
  intro retry
  induction retry with
  | zero =>
    intro stdin v
    simp only [show_year_prompt, show_year_promptA]
    constructor
    · intro h
      exact absurd h (by simp)
    · rintro ⟨i, hi, _⟩
      exact absurd hi (Nat.not_lt_zero i)
  | succ n ih =>
    intro stdin v
    by_cases h0 : is_year_valid (pyStrip (stdin 0)) = true
    · simp only [show_year_prompt, show_year_promptA, if_pos h0]
      constructor
      · intro h
        have hv : (pythonParseInt (pyStrip (stdin 0))).getD 0 = v := by simpa using h
        exact ⟨0, Nat.succ_pos n, h0,
          fun j hj => absurd hj (Nat.not_lt_zero j), hv.symm⟩
      · rintro ⟨i, hi, hval, hmin, hv⟩
        cases i with
        | zero => simp [hv]
        | succ j => exact absurd h0 (by simp [hmin 0 (Nat.succ_pos j)])
    · have h0' : is_year_valid (pyStrip (stdin 0)) = false := by
        cases h : is_year_valid (pyStrip (stdin 0))
        · rfl
        · exact absurd h h0
      have hfst : show_year_prompt (n + 1) stdin
          = show_year_prompt n (fun i => stdin (i + 1)) := by
        simp only [show_year_prompt, show_year_promptA,
          if_neg (by simp [h0'] : ¬ is_year_valid (pyStrip (stdin 0)) = true)]
      rw [hfst, ih (fun i => stdin (i + 1)) v]
      constructor
      · rintro ⟨i, hi, hval, hmin, hv⟩
        refine ⟨i + 1, Nat.succ_lt_succ hi, hval, ?_, hv⟩
        intro j hj
        cases j with
        | zero => exact h0'
        | succ l => exact hmin l (Nat.lt_of_succ_lt_succ hj)
      · rintro ⟨i, hi, hval, hmin, hv⟩
        cases i with
        | zero => exact absurd hval (by simp [h0'])
        | succ l =>
          exact ⟨l, Nat.lt_of_succ_lt_succ hi, hval,
            fun j hj => hmin (j + 1) (Nat.succ_lt_succ hj), hv⟩

/-- C6 counterexample: with budget 3, the fullname prompt consumes two
attempts (one invalid answer, then a valid one), after which the year
prompt — invoked, as `main` does, with the full configured budget rather
than the remainder — still consumes three attempts, for five attempts in
total, exceeding the budget of 3. -/
theorem c6_shared_budget_cex :
    (show_fullname_promptA 3 (fun i => if i = 0 then "" else "Ada")).2 = 2 ∧
      (show_year_promptA 3 (fun _ => "x")).2 = 3 ∧
      3 < (show_fullname_promptA 3 (fun i => if i = 0 then "" else "Ada")).2 +
            (show_year_promptA 3 (fun _ => "x")).2 :=
  ⟨by decide, by decide, by decide⟩

/-- C6 (amended): the retry budget is a per-field cap: each field's prompt,
invoked with the configured budget, makes at most that many attempts,
independently of the attempts other fields consumed, so the total over the
three promptable fields is bounded by three times the budget, not by the
budget itself. -/
theorem c6_per_field_budget_bounds :
    ∀ (budget : Nat) (s1 s2 s3 : Nat → String),
      (show_fullname_promptA budget s1).2 ≤ budget ∧
      (show_project_promptA budget s2).2 ≤ budget ∧
      (show_year_promptA budget s3).2 ≤ budget ∧
      (show_fullname_promptA budget s1).2 + (show_project_promptA budget s2).2 +
          (show_year_promptA budget s3).2 ≤ 3 * budget := by
  intro budget s1 s2 s3
  have h1 := show_fullname_promptA_count_le budget s1
  have h2 := show_project_promptA_count_le budget s2
  have h3 := show_year_promptA_count_le budget s3
  exact ⟨h1, h2, h3, by omega⟩

/-- C8: the year validator accepts a string exactly when it parses as an
integer and January 1st of that year is a constructible calendar date; in
particular the string abcd always fails and the string 1066 always
passes. -/
theorem c8_year_validator_iff :
    (∀ s : String, is_year_valid s = true ↔
        ∃ y : Int, pythonParseInt s = some y ∧ date_jan1_ok y = true) ∧
      is_year_valid "abcd" = false ∧ is_year_valid "1066" = true := by
  refine ⟨fun s => ?_, by decide, by decide⟩
  cases h : pythonParseInt s with
  | none => simp [is_year_valid, h]
  | some y => simp [is_year_valid, h]

/-- C9: each single-field prompt makes at most `retry` attempts; it returns
`none` exactly when every one of the `retry` read lines is invalid after
trimming, and returns a value exactly when some attempt is the first valid
one, the value being that trimmed answer (for the year prompt, its parsed
integer); in particular three invalid answers under budget 3 give `none`,
and an invalid answer followed by a valid one under budget 2 gives the
valid value. -/
theorem c9_prompt_retry_semantics :
    (∀ (retry : Nat) (stdin : Nat → String),
      (show_fullname_promptA retry stdin).2 ≤ retry ∧
      (show_year_promptA retry stdin).2 ≤ retry ∧
      (show_fullname_prompt retry stdin = none ↔
        ∀ i, i < retry → is_author_valid (pyStrip (stdin i)) = false) ∧
      (∀ v, show_fullname_prompt retry stdin = some v ↔
        ∃ i, i < retry ∧ is_author_valid (pyStrip (stdin i)) = true ∧
          (∀ j, j < i → is_author_valid (pyStrip (stdin j)) = false) ∧
          v = pyStrip (stdin i)) ∧
      (show_year_prompt retry stdin = none ↔
        ∀ i, i < retry → is_year_valid (pyStrip (stdin i)) = false) ∧
      (∀ v, show_year_prompt retry stdin = some v ↔
        ∃ i, i < retry ∧ is_year_valid (pyStrip (stdin i)) = true ∧
          (∀ j, j < i → is_year_valid (pyStrip (stdin j)) = false) ∧
          v = (pythonParseInt (pyStrip (stdin i))).getD 0)) ∧
      show_year_prompt 3 (fun _ => "abcd") = none ∧
      show_fullname_prompt 2 (fun i => if i = 0 then " " else "Ada") = some "Ada" := by
  refine ⟨fun retry stdin => ⟨show_fullname_promptA_count_le retry stdin,
    show_year_promptA_count_le retry stdin,
    show_fullname_prompt_none_iff retry stdin,
    fun v => show_fullname_prompt_some_iff retry stdin v,
    show_year_prompt_none_iff retry stdin,
    fun v => show_year_prompt_some_iff retry stdin v⟩, by decide, by decide⟩

/-! ### Renderer lemmas -/

theorem renderAux_spec (ctx : List Char → Option (List Char)) :
    ∀ (T : List Char) (st : Option (List Char)),
      (∀ acc, st = some acc → ']' ∉ acc) →
      (∀ r, r ∈ reFindallAux T st → bracketFreeVal (ctx r) = true) →
      ∃ out, renderAux ctx T st = some out ∧ reFindallAux out none = [] ∧
        ∀ r v, r ∈ reFindallAux T st → ctx r = some v → v <:+: out := by
  intro T
  induction T with
  | nil =>
    intro st hst _
    cases st with
    | none =>
      exact ⟨[], rfl, rfl, fun r v hr _ => absurd hr (by simp [reFindallAux])⟩
    | some acc =>
      refine ⟨'[' :: acc, rfl, ?_, fun r v hr _ => absurd hr (by simp [reFindallAux])⟩
      have hacc := hst acc rfl
      have h1 : reFindallAux ('[' :: acc) none = reFindallAux acc (some []) := by
        simp [reFindallAux]
      rw [h1]
      exact reFindallAux_no_close acc [] hacc
  | cons c rest ih =>
    intro st hst hcov
    cases st with
    | none =>
      by_cases hc : c = '['
      · subst hc
        have htok : reFindallAux ('[' :: rest) none = reFindallAux rest (some []) := by
          simp [reFindallAux]
        obtain ⟨out, hout, hscan, hinf⟩ :=
          ih (some []) (fun a h => by cases h; simp)
            (fun r hr => hcov r (by rw [htok]; exact hr))
        refine ⟨out, ?_, hscan, fun r v hr hv => hinf r v (htok ▸ hr) hv⟩
        simp [renderAux, hout]
      · have htok : reFindallAux (c :: rest) none = reFindallAux rest none := by
          simp [reFindallAux, hc]
        obtain ⟨out, hout, hscan, hinf⟩ :=
          ih none (fun a h => by cases h)
            (fun r hr => hcov r (by rw [htok]; exact hr))
        refine ⟨c :: out, ?_, ?_, ?_⟩
        · simp [renderAux, hc, hout]
        · simp [reFindallAux, hc, hscan]
        · intro r v hr hv
          obtain ⟨p, q, hpq⟩ := hinf r v (htok ▸ hr) hv
          exact ⟨c :: p, q, by rw [← hpq]; rfl⟩
    | some acc =>
      have hacc := hst acc rfl
      by_cases hc : c = ']'
      · subst hc
        by_cases hanil : acc = []
        · subst hanil
          have htok : reFindallAux (']' :: rest) (some []) = reFindallAux rest none := by
            simp [reFindallAux]
          obtain ⟨out, hout, hscan, hinf⟩ :=
            ih none (fun a h => by cases h)
              (fun r hr => hcov r (by rw [htok]; exact hr))
          refine ⟨'[' :: ']' :: out, ?_, ?_, ?_⟩
          · simp [renderAux, hout]
          · simp [reFindallAux, hscan]
          · intro r v hr hv
            obtain ⟨p, q, hpq⟩ := hinf r v (htok ▸ hr) hv
            exact ⟨'[' :: ']' :: p, q, by rw [← hpq]; rfl⟩
        · have htok : reFindallAux (']' :: rest) (some acc)
              = acc :: reFindallAux rest none := by
            simp [reFindallAux, hanil]
          have hmem : acc ∈ reFindallAux (']' :: rest) (some acc) := by
            rw [htok]
            exact List.mem_cons_self _ _
          have hbf := hcov acc hmem
          cases hctx : ctx acc with
          | none =>
            rw [hctx] at hbf
            simp [bracketFreeVal] at hbf
          | some v0 =>
            rw [hctx] at hbf
            have hv0 : '[' ∉ v0 ∧ ']' ∉ v0 := by
              simpa [bracketFreeVal, Bool.and_eq_true, decide_eq_true_eq] using hbf
            obtain ⟨out, hout, hscan, hinf⟩ :=
              ih none (fun a h => by cases h)
                (fun r hr => hcov r (by rw [htok]; exact List.mem_cons_of_mem _ hr))
            refine ⟨v0 ++ out, ?_, ?_, ?_⟩
            · simp [renderAux, hanil, hctx, hout]
            · rw [reFindallAux_append_no_open v0 out hv0.1, hscan]
            · intro r v hr hv
              rw [htok] at hr
              rcases List.mem_cons.mp hr with h | h
              · subst h
                rw [hctx] at hv
                cases hv
                exact ⟨[], out, by simp⟩
              · obtain ⟨p, q, hpq⟩ := hinf r v h hv
                exact ⟨v0 ++ p, q, by rw [← hpq]; simp [List.append_assoc]⟩
      · have htok : reFindallAux (c :: rest) (some acc)
            = reFindallAux rest (some (acc ++ [c])) := by
          simp [reFindallAux, hc]
        have hacc' : ']' ∉ acc ++ [c] := by
          intro h
          rcases List.mem_append.mp h with h | h
          · exact hacc h
          · simp at h
            exact hc h.symm
        obtain ⟨out, hout, hscan, hinf⟩ :=
          ih (some (acc ++ [c])) (fun a h => by cases h; exact hacc')
            (fun r hr => hcov r (by rw [htok]; exact hr))
        refine ⟨out, ?_, hscan, fun r v hr hv => hinf r v (htok ▸ hr) hv⟩
        simp [renderAux, hc, hout]

/-- C7 (amended): rendering a template against a context that covers every
required field with a value containing no bracket character succeeds,
yields an output in which the scanner finds no placeholder at all, and the
output contains every resolved field value verbatim. -/
theorem c7_render_covered_roundtrip (ctx : List Char → Option (List Char))
    (T : List Char)
    (hcov : ∀ r ∈ scanTokens T, bracketFreeVal (ctx r) = true) :
    ∃ out, render ctx T = some out ∧ scanTokens out = [] ∧
      ∀ r v, r ∈ scanTokens T → ctx r = some v → v <:+: out := by
  have hcov' : ∀ r, r ∈ reFindallAux T none → bracketFreeVal (ctx r) = true :=
    fun r hr => hcov r (List.mem_dedup.mpr hr)
  obtain ⟨out, hout, hscan, hinf⟩ :=
    renderAux_spec ctx T none (fun a h => by cases h) hcov'
  refine ⟨out, hout, ?_, fun r v hr hv => hinf r v (List.mem_dedup.mp hr) hv⟩
  rw [scanTokens, reFindall, hscan]
  rfl

/-- C7 counterexample: a context value may itself contain brackets; then
the rendered output re-scans to a nonempty placeholder set, refuting the
unconditional round-trip claim. -/
theorem c7_render_bracket_value_cex :
    render (fun r => if r = ['a'] then some ['[', 'b', ']'] else none) "[a]".data
        = some "[b]".data ∧
      scanTokens "[b]".data = [['b']] :=
  ⟨by decide, by decide⟩

/-- C7 witness: the amended round-trip theorem applied to a concrete
template and covering bracket-free context. -/
theorem c7_render_witness :
    (∀ r ∈ scanTokens "[a] and [b]".data,
        bracketFreeVal ((fun t => if t = ['a'] then some ['X']
          else if t = ['b'] then some ['Y'] else none) r) = true) ∧
      (∃ out, render (fun t => if t = ['a'] then some ['X']
            else if t = ['b'] then some ['Y'] else none) "[a] and [b]".data
          = some out ∧
        scanTokens out = [] ∧
        ∀ r v, r ∈ scanTokens "[a] and [b]".data →
          (fun t => if t = ['a'] then some ['X']
            else if t = ['b'] then some ['Y'] else none) r = some v →
          v <:+: out) :=
  ⟨by decide, c7_render_covered_roundtrip _ _ (by decide)⟩
